import Mathlib

/-!
Verification of the Basie query-builder core: a shallow embedding of the
query-builder state model (`src/query/builder.ts`, `src/query/join-clause.ts`,
`src/query/types.ts`), the SQL grammar compiler (`src/query/compiler.ts`) and
the PostgreSQL engine's placeholder transform (`src/engines/postgres-engine.ts`),
together with theorems settling the frozen claims about them.

Modelling conventions:
* TypeScript `DatabaseType = number | string | boolean` becomes the inductive
  `DatabaseType`; `jsUndefined` stands for the JavaScript `undefined` that an
  out-of-shape object access would produce.
* JavaScript objects used as row values (`insert`, `update`) become ordered
  association lists `List (String × DatabaseType)`; `Object.keys` becomes
  `List.map Prod.fst` (JS objects preserve string-key insertion order).
* `Array.prototype.join(sep)` becomes `joinSep`, `reduce((p, c) => [...p, ...c], [])`
  becomes `List.flatten`, and `filter(x => !!x)` on strings becomes
  `List.filter (fun s => s ≠ "")`.
* The two overridable escaping hooks `escapeColumn`/`escapeTable` are explicit
  function parameters `escC`/`escT` (the base class uses the identity).
* Mutating chain methods become state transformers `QueryBuilder → QueryBuilder`;
  `limit` (which can throw) returns `Except String QueryBuilder`.
-/

namespace Basie

/-- `DatabaseType = number | string | boolean` from `base-model.ts`; numbers are
modelled as integers (no fractional values occur in the compiler), and `jsUndefined`
models the JavaScript `undefined` produced by reading an absent object key. -/
inductive DatabaseType where
  | num (n : Int)
  | str (s : String)
  | boolean (b : Bool)
  | jsUndefined
deriving DecidableEq, Repr

/-- One `ORDER BY` entry: `{ column: string, direction: OrderDirection }`. -/
structure OrderClause where
  column : String
  direction : String
deriving DecidableEq, Repr

/-- The `{ sql, args }` pair returned by every compile step (`QueryComponent`). -/
structure QueryComponent where
  sql : String
  args : List DatabaseType
deriving DecidableEq, Repr

mutual

/-- The tagged union `WhereQueryClause` of `types.ts`. `Operator` and
`QueryBoolean` are string unions in the source and are kept as strings. -/
inductive WhereQueryClause where
  | basic (column : String) (operator : String) (value : DatabaseType) (boolean : String)
  | columnCmp (first : String) (operator : String) (second : String) (boolean : String)
  | raw (sql : String) (values : List DatabaseType) (boolean : String)
  | isNull (column : String) (boolean : String) (negate : Bool)
  | nested (builder : QueryBuilder) (boolean : String)

/-- The mutable state of `QueryBuilder` (`builder.ts`): model-constructor marker,
aggregate function, table, columns, distinct flag, joins, wheres, groups,
orders and limit (with `-1` meaning "no limit", as in the source). -/
inductive QueryBuilder where
  | mk (modelCtor : Bool) (aggregateFunction : Option String) (table : String)
       (columns : List String) (isDistinct : Bool) (joins : List JoinClause)
       (wheres : List WhereQueryClause) (groups : List String)
       (orders : List OrderClause) (limitCount : Int)

/-- A `JoinClause` (`join-clause.ts`) is a `QueryBuilder` subclass carrying the
join kind and the joined table; the inherited builder state (whose `wheres`
are the ON conditions) is held in the `builder` field. -/
inductive JoinClause where
  | mk (type : String) (joiningOn : String) (builder : QueryBuilder)

end

/-- The `boolean` connector carried by every where-clause variant. -/
def WhereQueryClause.boolean : WhereQueryClause → String
  | .basic _ _ _ b => b
  | .columnCmp _ _ _ b => b
  | .raw _ _ b => b
  | .isNull _ b _ => b
  | .nested _ b => b

def QueryBuilder.modelCtor : QueryBuilder → Bool
  | .mk m _ _ _ _ _ _ _ _ _ => m

def QueryBuilder.aggregateFunction : QueryBuilder → Option String
  | .mk _ a _ _ _ _ _ _ _ _ => a

def QueryBuilder.table : QueryBuilder → String
  | .mk _ _ t _ _ _ _ _ _ _ => t

def QueryBuilder.columns : QueryBuilder → List String
  | .mk _ _ _ c _ _ _ _ _ _ => c

def QueryBuilder.isDistinct : QueryBuilder → Bool
  | .mk _ _ _ _ d _ _ _ _ _ => d

def QueryBuilder.joins : QueryBuilder → List JoinClause
  | .mk _ _ _ _ _ j _ _ _ _ => j

def QueryBuilder.wheres : QueryBuilder → List WhereQueryClause
  | .mk _ _ _ _ _ _ w _ _ _ => w

def QueryBuilder.groups : QueryBuilder → List String
  | .mk _ _ _ _ _ _ _ g _ _ => g

def QueryBuilder.orders : QueryBuilder → List OrderClause
  | .mk _ _ _ _ _ _ _ _ o _ => o

def QueryBuilder.limitCount : QueryBuilder → Int
  | .mk _ _ _ _ _ _ _ _ _ l => l

def JoinClause.type : JoinClause → String
  | .mk t _ _ => t

def JoinClause.joiningOn : JoinClause → String
  | .mk _ j _ => j

def JoinClause.builder : JoinClause → QueryBuilder
  | .mk _ _ b => b

/-- JavaScript `Array.prototype.join(sep)`. -/
def joinSep (sep : String) : List String → String
  | [] => ""
  | [x] => x
  | x :: xs => x ++ sep ++ joinSep sep xs

/-- JavaScript truthiness of a nullable string: `null`/`undefined` and `""` are
falsy. Used to mirror `if (!builder.aggregateFunction)` checks faithfully. -/
def strTruthy : Option String → Bool
  | none => false
  | some s => s ≠ ""

mutual

/-- The per-variant dispatch inside `SQLGrammarCompiler.compileConditions`:
`compileBasicWhere`, `compileColumnWhere`, `compileRawWhere`,
`compileNullWhere` and `compileNestedWhere`, without the connector prefix. -/
def compileWhereContent (escC : String → String) : WhereQueryClause → QueryComponent
  | .basic column operator value _ =>
      { sql := escC column ++ " " ++ operator ++ " ?", args := [value] }
  | .columnCmp first operator second _ =>
      { sql := escC first ++ " " ++ operator ++ " " ++ escC second, args := [] }
  | .raw sql values _ => { sql := sql, args := values }
  | .isNull column _ negate =>
      { sql := escC column ++ " IS " ++ (if negate then "NOT " else "") ++ "NULL", args := [] }
  | .nested (.mk _ _ _ _ _ _ ws _ _ _) _ =>
      let inner := compileConditionsList escC ws
      { sql := "(" ++ inner.sql ++ ")", args := inner.args }
termination_by w => (sizeOf w, 0)

/-- The indexed `map` inside `compileConditions`: every clause after the first
is prefixed with its `boolean` connector and a space. -/
def compileConditionParts (escC : String → String) (isFirst : Bool) :
    List WhereQueryClause → List QueryComponent
  | [] => []
  | w :: rest =>
      let content := compileWhereContent escC w
      { sql := (if isFirst then "" else w.boolean ++ " ") ++ content.sql,
        args := content.args } :: compileConditionParts escC false rest
termination_by ws => (sizeOf ws, 1)

/-- `SQLGrammarCompiler.compileConditions`, acting on a builder's `wheres` list:
space-join the prefixed fragments and concatenate their argument lists. -/
def compileConditionsList (escC : String → String) (ws : List WhereQueryClause) :
    QueryComponent :=
  let parts := compileConditionParts escC true ws
  { sql := joinSep " " (parts.map QueryComponent.sql),
    args := (parts.map QueryComponent.args).flatten }
termination_by (sizeOf ws, 2)

end

/-- `SQLGrammarCompiler.compileAggregate`. -/
def compileAggregate (escC : String → String) (b : QueryBuilder) : QueryComponent :=
  if !strTruthy b.aggregateFunction then { sql := "", args := [] } else
    let columns := joinSep ", " (b.columns.map escC)
    { sql := "SELECT " ++ b.aggregateFunction.getD "" ++ "(" ++
        (if b.isDistinct && columns ≠ "*" then "DISTINCT " else "") ++ columns ++
        ") AS aggregate",
      args := [] }

/-- `SQLGrammarCompiler.compileColumns`: skipped when an aggregate is present. -/
def compileColumns (escC : String → String) (b : QueryBuilder) : QueryComponent :=
  if strTruthy b.aggregateFunction then { sql := "", args := [] } else
    { sql := (if b.isDistinct then "SELECT DISTINCT " else "SELECT ") ++
        joinSep ", " (b.columns.map escC),
      args := [] }

/-- `SQLGrammarCompiler.compileFrom`. -/
def compileFrom (escT : String → String) (b : QueryBuilder) : QueryComponent :=
  { sql := "FROM " ++ escT b.table, args := [] }

/-- The per-join body of the `map` inside `SQLGrammarCompiler.compileJoins`:
`{KIND} JOIN {escapedTable} ON {compiled ON body}`. -/
def compileJoinPart (escC escT : String → String) (join : JoinClause) : QueryComponent :=
  let condition := compileConditionsList escC join.builder.wheres
  { sql := join.type ++ " JOIN " ++ escT join.joiningOn ++ " ON " ++ condition.sql,
    args := condition.args }

/-- `SQLGrammarCompiler.compileJoins`. -/
def compileJoins (escC escT : String → String) (b : QueryBuilder) : QueryComponent :=
  let parts := b.joins.map (compileJoinPart escC escT)
  { sql := joinSep " " (parts.map QueryComponent.sql),
    args := (parts.map QueryComponent.args).flatten }

/-- `SQLGrammarCompiler.compileWheres`. -/
def compileWheres (escC : String → String) (b : QueryBuilder) : QueryComponent :=
  if b.wheres.isEmpty then { sql := "", args := [] } else
    let part := compileConditionsList escC b.wheres
    { sql := "WHERE " ++ part.sql, args := part.args }

/-- `SQLGrammarCompiler.compileGroups`. -/
def compileGroups (escC : String → String) (b : QueryBuilder) : QueryComponent :=
  if b.groups.isEmpty then { sql := "", args := [] } else
    { sql := "GROUP BY " ++ joinSep ", " (b.groups.map escC), args := [] }

/-- `SQLGrammarCompiler.compileOrders`. -/
def compileOrders (escC : String → String) (b : QueryBuilder) : QueryComponent :=
  if b.orders.isEmpty then { sql := "", args := [] } else
    { sql := "ORDER BY " ++
        joinSep ", " (b.orders.map (fun x => escC x.column ++ " " ++ x.direction)),
      args := [] }

/-- `SQLGrammarCompiler.compileLimit`: `-1` means no limit. -/
def compileLimit (b : QueryBuilder) : QueryComponent :=
  if b.limitCount = -1 then { sql := "", args := [] } else
    { sql := "LIMIT ?", args := [.num b.limitCount] }

/-- `SQLGrammarCompiler.compileComponents`, in the source's fixed key order. -/
def compileComponents (escC escT : String → String) (b : QueryBuilder) :
    List QueryComponent :=
  [compileAggregate escC b, compileColumns escC b, compileFrom escT b,
   compileJoins escC escT b, compileWheres escC b, compileGroups escC b,
   compileOrders escC b, compileLimit b]

/-- `SQLGrammarCompiler.compileSelect`: empty fragments are filtered from the
SQL, all argument lists are concatenated in component order. -/
def compileSelect (escC escT : String → String) (b : QueryBuilder) : QueryComponent :=
  let comps := compileComponents escC escT b
  { sql := joinSep " " ((comps.map QueryComponent.sql).filter (fun s => s ≠ "")),
    args := (comps.map QueryComponent.args).flatten }

/-- JavaScript property read `row[k]` on an association-list row; an absent key
yields `undefined`. -/
def jsGet (row : List (String × DatabaseType)) (k : String) : DatabaseType :=
  match row.find? (fun kv => kv.1 = k) with
  | some kv => kv.2
  | none => .jsUndefined

/-- `SQLGrammarCompiler.compileInsert`. The column list comes from the keys of
the first row (the source also drops function-valued keys, which cannot occur
for `DatabaseType` values and so has no counterpart here); arguments are the
row values flattened in row-major, column order. -/
def compileInsert (escC escT : String → String) (b : QueryBuilder)
    (values : List (List (String × DatabaseType))) : QueryComponent :=
  let keys := match values with
    | [] => []
    | r :: _ => r.map Prod.fst
  let columns := joinSep "," (keys.map escC)
  let args := (values.map (fun x => keys.map (fun k => jsGet x k))).flatten
  let placeholders :=
    joinSep ", " (values.map (fun _ => "(" ++ joinSep "," (keys.map (fun _ => "?")) ++ ")"))
  { sql := "INSERT INTO " ++ escT b.table ++ " (" ++ columns ++ ") VALUES " ++ placeholders,
    args := args }

/-- `SQLGrammarCompiler.compileUpdate`: note that the source neither escapes the
SET keys nor inserts a space between the table and the join fragment. -/
def compileUpdate (escC escT : String → String) (b : QueryBuilder)
    (value : List (String × DatabaseType)) : QueryComponent :=
  let columns := joinSep ", " (value.map (fun kv => kv.1 ++ " = ?"))
  let args := value.map Prod.snd
  let joins := compileJoins escC escT b
  let wheres := compileWheres escC b
  { sql := "UPDATE " ++ escT b.table ++ joins.sql ++ " SET " ++ columns ++ " " ++ wheres.sql,
    args := joins.args ++ args ++ wheres.args }

/-- `SQLGrammarCompiler.compileDelete`. -/
def compileDelete (escC escT : String → String) (b : QueryBuilder) : QueryComponent :=
  let wheres := compileWheres escC b
  { sql := "DELETE FROM " ++ escT b.table ++ " " ++ wheres.sql, args := wheres.args }

/-- `PostgresEngine.transformQuery`, character-level: the JavaScript
`sql.replace(/\?/g, () => "$" + (i++))` with the counter starting at `1`
replaces each `?` in left-to-right order with `$1`, `$2`, ... -/
def pgTransformChars : List Char → Nat → List Char
  | [], _ => []
  | c :: rest, i =>
      if c = '?' then '$' :: (toString i).data ++ pgTransformChars rest (i + 1)
      else c :: pgTransformChars rest i

/-- `PostgresEngine.transformQuery`: numbers the placeholders and passes the
parameter list through unchanged as `values`. -/
def transformQuery (sql : String) (params : List DatabaseType) :
    String × List DatabaseType :=
  (String.mk (pgTransformChars sql.data 1), params)

/-- `new QueryBuilder()`: the field initializers of `builder.ts` (the
uninitialized `table` is represented by `""`). -/
def QueryBuilder.empty : QueryBuilder :=
  .mk false none "" ["*"] false [] [] [] [] (-1)

/-- The `string` branch of `QueryBuilder.from`: only `table` is replaced. -/
def QueryBuilder.fromTable : QueryBuilder → String → QueryBuilder
  | .mk m a _ c d j w g o l, t => .mk m a t c d j w g o l

/-- `QueryBuilder.table(table)`: `new QueryBuilder().from(table)`. -/
def QueryBuilder.ofTable (t : String) : QueryBuilder :=
  QueryBuilder.empty.fromTable t

/-- Push one where clause (the `this.wheres.push(...)` common to all `where*`
methods). -/
def QueryBuilder.pushWhere : QueryBuilder → WhereQueryClause → QueryBuilder
  | .mk m a t c d j w g o l, clause => .mk m a t c d j (w ++ [clause]) g o l

/-- The full-argument form of `QueryBuilder.where`. -/
def QueryBuilder.whereBasic (b : QueryBuilder) (column operator : String)
    (value : DatabaseType) (boolean : String) : QueryBuilder :=
  b.pushWhere (.basic column operator value boolean)

/-- The two-argument shorthand `where(column, value)`, defaulting the operator
to `=` and the connector to `AND`. -/
def QueryBuilder.whereEq (b : QueryBuilder) (column : String) (value : DatabaseType) :
    QueryBuilder :=
  b.whereBasic column "=" value "AND"

/-- The two-argument shorthand of `QueryBuilder.orWhere`, forcing `OR`. -/
def QueryBuilder.orWhereEq (b : QueryBuilder) (column : String) (value : DatabaseType) :
    QueryBuilder :=
  b.whereBasic column "=" value "OR"

/-- `QueryBuilder.whereColumn`. -/
def QueryBuilder.whereColumn (b : QueryBuilder) (first operator second boolean : String) :
    QueryBuilder :=
  b.pushWhere (.columnCmp first operator second boolean)

/-- `QueryBuilder.whereRaw`. -/
def QueryBuilder.whereRaw (b : QueryBuilder) (query : String)
    (args : List DatabaseType) (boolean : String) : QueryBuilder :=
  b.pushWhere (.raw query args boolean)

/-- `QueryBuilder.whereNull` (with `negate` for the NOT NULL variants). -/
def QueryBuilder.whereNull (b : QueryBuilder) (column boolean : String)
    (negate : Bool) : QueryBuilder :=
  b.pushWhere (.isNull column boolean negate)

/-- `QueryBuilder.whereNested`: a fresh builder scoped to the same table is
handed to the callback and its result is wrapped as a nested clause. -/
def QueryBuilder.whereNested (b : QueryBuilder)
    (handler : QueryBuilder → QueryBuilder) (boolean : String) : QueryBuilder :=
  b.pushWhere (.nested (handler (QueryBuilder.empty.fromTable b.table)) boolean)

/-- `QueryBuilder.groupBy`: prepend the new columns, then the JavaScript
de-duplication idiom `.filter((e, i, a) => a.indexOf(e) === i)`. -/
def jsUniqueFilter (a : List String) : List String :=
  (a.enum.filter (fun p => a.indexOf p.2 == p.1)).map Prod.snd

def QueryBuilder.groupBy : QueryBuilder → List String → QueryBuilder
  | .mk m a t c d j w g o l, gs => .mk m a t c d j w (jsUniqueFilter (gs ++ g)) o l

/-- `QueryBuilder.orderBy`. -/
def QueryBuilder.orderBy : QueryBuilder → String → String → QueryBuilder
  | .mk m a t c d j w g o l, column, direction =>
      .mk m a t c d j w g (o ++ [⟨column, direction⟩]) l

/-- `QueryBuilder.limit`: throws `limit() expects a positive integer.` when
`count < 1`, otherwise sets `limitCount`. -/
def QueryBuilder.limit (b : QueryBuilder) (count : Int) : Except String QueryBuilder :=
  if count < 1 then .error "limit() expects a positive integer."
  else match b with
    | .mk m a t c d j w g o _ => .ok (.mk m a t c d j w g o count)

/-- The builder mutation performed by `first()` before compiling: `this.limit(1)`
(which never throws). -/
def QueryBuilder.firstState (b : QueryBuilder) : QueryBuilder :=
  match b.limit 1 with
  | .ok b2 => b2
  | .error _ => b

/-- The builder mutation performed by `value(column)` before compiling:
also `this.limit(1)`; the requested column is only projected from the rows. -/
def QueryBuilder.valueState (b : QueryBuilder) : QueryBuilder :=
  b.firstState

/-- The builder mutation performed by `pluck(column)` before compiling:
`this.columns = [column]`. -/
def QueryBuilder.pluckState : QueryBuilder → String → QueryBuilder
  | .mk m a t _ d j w g o l, column => .mk m a t [column] d j w g o l

/-- The builder mutation performed by `aggregate(fn, column?)` before compiling:
`this.columns = column ? [column] : this.columns; this.aggregateFunction = fn`. -/
def QueryBuilder.aggregateState : QueryBuilder → String → Option String → QueryBuilder
  | .mk m _ t c d j w g o l, fn, column =>
      .mk m (some fn) t (if strTruthy column then [column.getD ""] else c) d j w g o l

/-- `count()`: `this.aggregate("COUNT")`. -/
def QueryBuilder.countState (b : QueryBuilder) : QueryBuilder :=
  b.aggregateState "COUNT" none

/-- `avg(column?)`: `this.aggregate("AVG", column)`. -/
def QueryBuilder.avgState (b : QueryBuilder) (column : Option String) : QueryBuilder :=
  b.aggregateState "AVG" column

/-- `sum(column?)`: `this.aggregate("SUM", column)`. -/
def QueryBuilder.sumState (b : QueryBuilder) (column : Option String) : QueryBuilder :=
  b.aggregateState "SUM" column

/-- `min(column?)`: `this.aggregate("MIN", column)`. -/
def QueryBuilder.minState (b : QueryBuilder) (column : Option String) : QueryBuilder :=
  b.aggregateState "MIN" column

/-- `max(column?)`: `this.aggregate("MAX", column)`. -/
def QueryBuilder.maxState (b : QueryBuilder) (column : Option String) : QueryBuilder :=
  b.aggregateState "MAX" column

/-- Number of `?` placeholder characters in a string. -/
def strQ (s : String) : Nat := s.data.count '?'

mutual

/-- Well-formedness of one where clause with respect to the column-escaping
hook: no string that ends up verbatim in the SQL contains a stray `?`, and
every raw fragment carries exactly as many `?` as bound values. -/
def wcWF (escC : String → String) : WhereQueryClause → Bool
  | .basic column operator _ boolean =>
      strQ (escC column) == 0 && strQ operator == 0 && strQ boolean == 0
  | .columnCmp first operator second boolean =>
      strQ (escC first) == 0 && strQ operator == 0 && strQ (escC second) == 0 &&
        strQ boolean == 0
  | .raw sql values boolean => strQ sql == values.length && strQ boolean == 0
  | .isNull column boolean _ => strQ (escC column) == 0 && strQ boolean == 0
  | .nested (.mk _ _ _ _ _ _ ws _ _ _) boolean => strQ boolean == 0 && wsWF escC ws
termination_by w => (sizeOf w, 0)

/-- Well-formedness of a list of where clauses. -/
def wsWF (escC : String → String) : List WhereQueryClause → Bool
  | [] => true
  | w :: rest => wcWF escC w && wsWF escC rest
termination_by ws => (sizeOf ws, 1)

end

/-- Well-formedness of a whole builder: every identifier, operator, connector,
direction and aggregate name rendered verbatim into the SQL is `?`-free (after
escaping, where escaping applies) and every raw clause is balanced. -/
def builderWF (escC escT : String → String) (b : QueryBuilder) : Bool :=
  strQ (escT b.table) == 0 &&
  b.columns.all (fun c => strQ (escC c) == 0) &&
  (match b.aggregateFunction with
    | none => true
    | some fn => strQ fn == 0) &&
  wsWF escC b.wheres &&
  b.joins.all (fun j =>
    strQ j.type == 0 && strQ (escT j.joiningOn) == 0 && wsWF escC j.builder.wheres) &&
  b.groups.all (fun g => strQ (escC g) == 0) &&
  b.orders.all (fun o => strQ (escC o.column) == 0 && strQ o.direction == 0)

/-- One recorded `where`/`orWhere` chain call: the basic three-argument form
with its connector (`AND` for `where`, `OR` for `orWhere`, or an explicitly
passed connector). -/
structure WhereCall where
  column : String
  operator : String
  value : DatabaseType
  boolean : String
deriving DecidableEq, Repr

/-- Replay a sequence of chained `where`/`orWhere` calls on a builder. -/
def applyWhereCalls (b : QueryBuilder) : List WhereCall → QueryBuilder
  | [] => b
  | c :: rest => applyWhereCalls (b.whereBasic c.column c.operator c.value c.boolean) rest

/-- A SQL text presented as its `?`-free segments joined by `?` placeholders;
used to state the PostgreSQL placeholder-numbering claim. -/
def qInterleave : List (List Char) → List Char
  | [] => []
  | [s] => s
  | s :: rest => s ++ '?' :: qInterleave rest

/-- The same segments joined with sequentially numbered `$n` placeholders,
starting the numbering at `i`. -/
def qJoinNumbered : List (List Char) → Nat → List Char
  | [], _ => []
  | [s], _ => s
  | s :: rest, i => s ++ '$' :: (toString i).data ++ qJoinNumbered rest (i + 1)

mutual

/-- Exactly the hypothesis of the placeholder-count claim: every raw where
clause (recursively, through nested clauses) carries exactly as many `?`
tokens as bound values. -/
def wcRawBalanced : WhereQueryClause → Bool
  | .basic _ _ _ _ => true
  | .columnCmp _ _ _ _ => true
  | .raw sql values _ => strQ sql == values.length
  | .isNull _ _ _ => true
  | .nested (.mk _ _ _ _ _ _ ws _ _ _) _ => wsRawBalanced ws
termination_by w => (sizeOf w, 0)

/-- `wcRawBalanced` over a list of clauses. -/
def wsRawBalanced : List WhereQueryClause → Bool
  | [] => true
  | w :: rest => wcRawBalanced w && wsRawBalanced rest
termination_by ws => (sizeOf ws, 1)

end

/-- Every raw where clause of the builder, including those inside joins and
nested clauses, is balanced. -/
def builderRawBalanced (b : QueryBuilder) : Bool :=
  wsRawBalanced b.wheres && b.joins.all (fun j => wsRawBalanced j.builder.wheres)

/-! ## General lemmas -/

theorem strQ_append (a b : String) : strQ (a ++ b) = strQ a + strQ b := by
  simp [strQ, List.count_append]

theorem strQ_joinSep (sep : String) (hsep : strQ sep = 0) (l : List String) :
    strQ (joinSep sep l) = (l.map strQ).sum := by
  induction l with
  | nil => simp [joinSep, strQ]
  | cons x xs ih =>
    cases xs with
    | nil => simp [joinSep]
    | cons y ys =>
      simp only [joinSep, strQ_append] at *
      simp only [List.map_cons, List.sum_cons] at *
      omega

theorem strQ_filter_sum (l : List String) :
    ((l.filter (fun s => s ≠ "")).map strQ).sum = (l.map strQ).sum := by
  induction l with
  | nil => rfl
  | cons x xs ih =>
    rcases eq_or_ne x "" with hx | hx
    · subst hx
      have hf : ("" :: xs).filter (fun s => s ≠ "") = xs.filter (fun s => s ≠ "") := by
        simp [List.filter_cons]
      have h0 : strQ "" = 0 := rfl
      rw [hf, ih, List.map_cons, List.sum_cons, h0, Nat.zero_add]
    · have hf : (x :: xs).filter (fun s => s ≠ "") = x :: xs.filter (fun s => s ≠ "") := by
        simp [List.filter_cons, hx]
      rw [hf, List.map_cons, List.sum_cons, ih, List.map_cons, List.sum_cons]

/-! ## Claim 1: the PostgreSQL placeholder transform -/

theorem pgTransformChars_append_qfree (s t : List Char) (i : Nat) (h : '?' ∉ s) :
    pgTransformChars (s ++ t) i = s ++ pgTransformChars t i := by
  induction s with
  | nil => simp
  | cons c s ih =>
    have hc : ¬ c = '?' := fun hc => h (hc ▸ List.mem_cons_self c s)
    have hs : '?' ∉ s := fun hm => h (List.mem_cons_of_mem _ hm)
    simp [pgTransformChars, hc, ih hs]

theorem pgTransformChars_interleave (segs : List (List Char)) (i : Nat)
    (h : ∀ s ∈ segs, '?' ∉ s) :
    pgTransformChars (qInterleave segs) i = qJoinNumbered segs i := by
  induction segs generalizing i with
  | nil => simp [qInterleave, qJoinNumbered, pgTransformChars]
  | cons s rest ih =>
    cases rest with
    | nil =>
      have := pgTransformChars_append_qfree s [] i (h s (List.mem_cons_self s []))
      simpa [qInterleave, qJoinNumbered, pgTransformChars] using this
    | cons s2 rest2 =>
      have hs : '?' ∉ s := h s (List.mem_cons_self _ _)
      have hrest : ∀ u ∈ s2 :: rest2, '?' ∉ u := fun u hu => h u (List.mem_cons_of_mem _ hu)
      show pgTransformChars (s ++ '?' :: qInterleave (s2 :: rest2)) i = _
      rw [pgTransformChars_append_qfree s _ i hs]
      have hstep : pgTransformChars ('?' :: qInterleave (s2 :: rest2)) i
          = '$' :: (toString i).data ++ pgTransformChars (qInterleave (s2 :: rest2)) (i + 1) := by
        simp [pgTransformChars]
      rw [hstep, ih (i + 1) hrest]
      simp [qJoinNumbered]

/-- C1: For every SQL string — presented as its `?`-free segments joined by
`?` placeholders — and every argument list, the PostgreSQL engine's
`transformQuery` replaces the `?` placeholders with `$1`, `$2`, ... in
left-to-right order and passes the argument list through unchanged. -/
theorem postgres_transform_numbers_placeholders (segs : List (List Char))
    (params : List DatabaseType) (h : ∀ s ∈ segs, '?' ∉ s) :
    transformQuery (String.mk (qInterleave segs)) params
      = (String.mk (qJoinNumbered segs 1), params) := by
  unfold transformQuery
  rw [show (String.mk (qInterleave segs)).data = qInterleave segs from rfl]
  rw [pgTransformChars_interleave segs 1 h]

/-- Witness for C1: the spec's own example, `"... WHERE a = ? AND b = ?"`
becomes `"... WHERE a = $1 AND b = $2"` with the argument order preserved. -/
theorem postgres_transform_numbers_placeholders_witness :
    transformQuery (String.mk (qInterleave
        ["SELECT * FROM test WHERE a = ".data, " AND b = ".data, "".data]))
      [DatabaseType.str "x", DatabaseType.num 2]
      = (String.mk (qJoinNumbered
          ["SELECT * FROM test WHERE a = ".data, " AND b = ".data, "".data] 1),
         [DatabaseType.str "x", DatabaseType.num 2]) :=
  postgres_transform_numbers_placeholders _ _ (by decide)

/-- The witness's segments really are the spec's example query, and the result
really is the `$`-numbered query. -/
theorem postgres_transform_example_strings :
    String.mk (qInterleave
        ["SELECT * FROM test WHERE a = ".data, " AND b = ".data, "".data])
      = "SELECT * FROM test WHERE a = ? AND b = ?" ∧
    String.mk (qJoinNumbered
        ["SELECT * FROM test WHERE a = ".data, " AND b = ".data, "".data] 1)
      = "SELECT * FROM test WHERE a = $1 AND b = $2" := by
  constructor <;> rfl

/-! ## Placeholder/argument alignment through the condition compiler -/

theorem strQ_if_connector (c : Bool) (s : String) (h : strQ s = 0) :
    strQ (if c then "" else s) = 0 := by
  cases c
  · simpa using h
  · rfl

theorem wcWF_boolean (escC : String → String) (w : WhereQueryClause)
    (h : wcWF escC w = true) : strQ w.boolean = 0 := by
  cases w with
  | basic column operator value boolean =>
    simp [wcWF, WhereQueryClause.boolean] at *
    tauto
  | columnCmp first operator second boolean =>
    simp [wcWF, WhereQueryClause.boolean] at *
    tauto
  | raw sql values boolean =>
    simp [wcWF, WhereQueryClause.boolean] at *
    tauto
  | isNull column boolean negate =>
    simp [wcWF, WhereQueryClause.boolean] at *
    tauto
  | nested b boolean =>
    cases b
    simp [wcWF, WhereQueryClause.boolean] at *
    tauto

mutual

theorem compileWhereContent_aligned (escC : String → String) (w : WhereQueryClause)
    (h : wcWF escC w = true) :
    strQ (compileWhereContent escC w).sql = (compileWhereContent escC w).args.length := by
  match w with
  | .basic column operator value boolean =>
    simp only [wcWF, Bool.and_eq_true, beq_iff_eq] at h
    obtain ⟨⟨hc, ho⟩, hb⟩ := h
    have hq : strQ " ?" = 1 := by decide
    have hsp : strQ " " = 0 := by decide
    simp [compileWhereContent, strQ_append, hc, ho, hq, hsp]
  | .columnCmp first operator second boolean =>
    simp only [wcWF, Bool.and_eq_true, beq_iff_eq] at h
    obtain ⟨⟨⟨hf, ho⟩, hs⟩, hb⟩ := h
    have hsp : strQ " " = 0 := by decide
    simp [compileWhereContent, strQ_append, hf, ho, hs, hsp]
  | .raw sql values boolean =>
    simp only [wcWF, Bool.and_eq_true, beq_iff_eq] at h
    obtain ⟨hr, hb⟩ := h
    simp [compileWhereContent, hr]
  | .isNull column boolean negate =>
    simp only [wcWF, Bool.and_eq_true, beq_iff_eq] at h
    obtain ⟨hc, hb⟩ := h
    have h1 : strQ " IS " = 0 := by decide
    have h2 : strQ "NOT " = 0 := by decide
    have h3 : strQ "NULL" = 0 := by decide
    cases negate <;> simp [compileWhereContent, strQ_append, hc, h1, h2, h3]
  | .nested (.mk m a t c d j ws g o l) boolean =>
    simp only [wcWF, Bool.and_eq_true, beq_iff_eq] at h
    obtain ⟨hb, hw⟩ := h
    have hin := compileConditionsList_aligned escC ws hw
    have hl : strQ "(" = 0 := by decide
    have hr : strQ ")" = 0 := by decide
    simp [compileWhereContent, strQ_append, hl, hr, hin]
termination_by (sizeOf w, 0)

theorem compileConditionParts_aligned (escC : String → String) (isFirst : Bool)
    (ws : List WhereQueryClause) (h : wsWF escC ws = true) :
    ((compileConditionParts escC isFirst ws).map (fun p => strQ p.sql)).sum
      = ((compileConditionParts escC isFirst ws).map QueryComponent.args).flatten.length := by
  match ws with
  | [] => simp [compileConditionParts]
  | w :: rest =>
    simp only [wsWF, Bool.and_eq_true] at h
    have hw := compileWhereContent_aligned escC w h.1
    have hrest := compileConditionParts_aligned escC false rest h.2
    have hb : strQ (w.boolean ++ " ") = 0 := by
      have hb0 := wcWF_boolean escC w h.1
      have hsp : strQ " " = 0 := by decide
      simp [strQ_append, hb0, hsp]
    have hpre := strQ_if_connector isFirst (w.boolean ++ " ") hb
    simp only [compileConditionParts, List.map_cons, List.sum_cons, List.flatten_cons,
      List.length_append, strQ_append, hpre, hw, hrest]
    omega
termination_by (sizeOf ws, 1)

theorem compileConditionsList_aligned (escC : String → String)
    (ws : List WhereQueryClause) (h : wsWF escC ws = true) :
    strQ (compileConditionsList escC ws).sql = (compileConditionsList escC ws).args.length := by
  have hsp : strQ " " = 0 := by decide
  have hparts := compileConditionParts_aligned escC true ws h
  simp only [compileConditionsList, strQ_joinSep " " hsp, List.length_flatten,
    List.map_map]
  simpa [Function.comp] using hparts
termination_by (sizeOf ws, 2)

end

/-! ## Alignment of the SELECT components -/

theorem strQ_joinSep_zero (sep : String) (hsep : strQ sep = 0) (l : List String)
    (h : ∀ x ∈ l, strQ x = 0) : strQ (joinSep sep l) = 0 := by
  rw [strQ_joinSep sep hsep]
  apply List.sum_eq_zero
  intro n hn
  obtain ⟨x, hx, rfl⟩ := List.mem_map.mp hn
  exact h x hx

theorem builderWF_unpack (escC escT : String → String) (b : QueryBuilder)
    (h : builderWF escC escT b = true) :
    strQ (escT b.table) = 0 ∧ (∀ c ∈ b.columns, strQ (escC c) = 0) ∧
    (∀ fn, b.aggregateFunction = some fn → strQ fn = 0) ∧
    wsWF escC b.wheres = true ∧
    (∀ j ∈ b.joins, strQ j.type = 0 ∧ strQ (escT j.joiningOn) = 0 ∧
      wsWF escC j.builder.wheres = true) ∧
    (∀ g ∈ b.groups, strQ (escC g) = 0) ∧
    (∀ o ∈ b.orders, strQ (escC o.column) = 0 ∧ strQ o.direction = 0) := by
  simp only [builderWF, Bool.and_eq_true, List.all_eq_true, beq_iff_eq] at h
  obtain ⟨⟨⟨⟨⟨⟨h1, h2⟩, h3⟩, h4⟩, h5⟩, h6⟩, h7⟩ := h
  refine ⟨h1, h2, ?_, h4, ?_, h6, ?_⟩
  · intro fn hfn
    rw [hfn] at h3
    simpa using h3
  · intro j hj
    have := h5 j hj
    simp only [Bool.and_eq_true, beq_iff_eq] at this
    exact ⟨this.1.1, this.1.2, this.2⟩
  · intro o ho
    have := h7 o ho
    simp only [Bool.and_eq_true, beq_iff_eq] at this
    exact this

theorem strQ_if_bool (c : Bool) (s t : String) (hs : strQ s = 0) (ht : strQ t = 0) :
    strQ (if c then s else t) = 0 := by
  cases c
  · simpa using ht
  · simpa using hs

theorem compileAggregate_aligned (escC : String → String) (b : QueryBuilder)
    (hfn : ∀ fn, b.aggregateFunction = some fn → strQ fn = 0)
    (hcols : ∀ c ∈ b.columns, strQ (escC c) = 0) :
    strQ (compileAggregate escC b).sql = 0 ∧ (compileAggregate escC b).args = [] := by
  cases hst : strTruthy b.aggregateFunction with
  | false =>
    have hcond : (!strTruthy b.aggregateFunction) = true := by rw [hst]; rfl
    unfold compileAggregate
    rw [if_pos hcond]
    exact ⟨rfl, rfl⟩
  | true =>
    have hcond : ¬ ((!strTruthy b.aggregateFunction) = true) := by rw [hst]; simp
    unfold compileAggregate
    rw [if_neg hcond]
    refine ⟨?_, rfl⟩
    have hc : strQ (joinSep ", " (b.columns.map escC)) = 0 := by
      apply strQ_joinSep_zero _ (by decide)
      intro x hx
      obtain ⟨c, hcm, rfl⟩ := List.mem_map.mp hx
      exact hcols c hcm
    cases hagg : b.aggregateFunction with
    | none => rw [hagg] at hst; exact absurd hst (by simp [strTruthy])
    | some fn =>
      have hfn0 := hfn fn hagg
      have h1 : strQ "SELECT " = 0 := by decide
      have h2 : strQ "(" = 0 := by decide
      have h3 : strQ ") AS aggregate" = 0 := by decide
      simp only [hagg, Option.getD_some, strQ_append, h1, h2, h3, hfn0, hc,
        Nat.add_zero, Nat.zero_add]
      exact strQ_if_bool _ "DISTINCT " "" (by decide) rfl

theorem compileColumns_aligned (escC : String → String) (b : QueryBuilder)
    (hcols : ∀ c ∈ b.columns, strQ (escC c) = 0) :
    strQ (compileColumns escC b).sql = 0 ∧ (compileColumns escC b).args = [] := by
  cases hst : strTruthy b.aggregateFunction with
  | true =>
    have hcond : strTruthy b.aggregateFunction = true := hst
    unfold compileColumns
    rw [if_pos hcond]
    exact ⟨rfl, rfl⟩
  | false =>
    have hcond : ¬ (strTruthy b.aggregateFunction = true) := by rw [hst]; simp
    unfold compileColumns
    rw [if_neg hcond]
    refine ⟨?_, rfl⟩
    have hc : strQ (joinSep ", " (b.columns.map escC)) = 0 := by
      apply strQ_joinSep_zero _ (by decide)
      intro x hx
      obtain ⟨c, hcm, rfl⟩ := List.mem_map.mp hx
      exact hcols c hcm
    simp only [strQ_append, hc, Nat.add_zero]
    exact strQ_if_bool _ "SELECT DISTINCT " "SELECT " (by decide) (by decide)

theorem compileFrom_aligned (escT : String → String) (b : QueryBuilder)
    (htab : strQ (escT b.table) = 0) :
    strQ (compileFrom escT b).sql = 0 ∧ (compileFrom escT b).args = [] := by
  have h1 : strQ "FROM " = 0 := by decide
  exact ⟨by simp [compileFrom, strQ_append, h1, htab], rfl⟩

theorem compileJoinPart_aligned (escC escT : String → String) (j : JoinClause)
    (h1 : strQ j.type = 0) (h2 : strQ (escT j.joiningOn) = 0)
    (h3 : wsWF escC j.builder.wheres = true) :
    strQ (compileJoinPart escC escT j).sql = (compileJoinPart escC escT j).args.length := by
  have hc := compileConditionsList_aligned escC j.builder.wheres h3
  have hj : strQ " JOIN " = 0 := by decide
  have ho : strQ " ON " = 0 := by decide
  simp [compileJoinPart, strQ_append, h1, h2, hj, ho, hc]

theorem compileJoins_list_aligned (escC escT : String → String) (js : List JoinClause)
    (h : ∀ j ∈ js, strQ j.type = 0 ∧ strQ (escT j.joiningOn) = 0 ∧
      wsWF escC j.builder.wheres = true) :
    ((js.map (compileJoinPart escC escT)).map (fun p => strQ p.sql)).sum
      = ((js.map (compileJoinPart escC escT)).map QueryComponent.args).flatten.length := by
  induction js with
  | nil => rfl
  | cons j js ih =>
    have hj := h j (List.mem_cons_self _ _)
    have hjs := ih (fun x hx => h x (List.mem_cons_of_mem _ hx))
    have hpart := compileJoinPart_aligned escC escT j hj.1 hj.2.1 hj.2.2
    simp only [List.map_cons, List.sum_cons, List.flatten_cons, List.length_append]
    omega

theorem compileJoins_aligned (escC escT : String → String) (b : QueryBuilder)
    (h : ∀ j ∈ b.joins, strQ j.type = 0 ∧ strQ (escT j.joiningOn) = 0 ∧
      wsWF escC j.builder.wheres = true) :
    strQ (compileJoins escC escT b).sql = (compileJoins escC escT b).args.length := by
  have hsp : strQ " " = 0 := by decide
  have hlist := compileJoins_list_aligned escC escT b.joins h
  simp only [compileJoins, strQ_joinSep " " hsp, List.length_flatten, List.map_map]
  simpa [Function.comp] using hlist

theorem compileWheres_aligned (escC : String → String) (b : QueryBuilder)
    (h : wsWF escC b.wheres = true) :
    strQ (compileWheres escC b).sql = (compileWheres escC b).args.length := by
  by_cases he : b.wheres.isEmpty = true
  · unfold compileWheres
    rw [if_pos he]
    rfl
  · have hc := compileConditionsList_aligned escC b.wheres h
    have hw : strQ "WHERE " = 0 := by decide
    unfold compileWheres
    rw [if_neg he]
    simp only [strQ_append, hw, hc, Nat.zero_add]

theorem compileGroups_aligned (escC : String → String) (b : QueryBuilder)
    (h : ∀ g ∈ b.groups, strQ (escC g) = 0) :
    strQ (compileGroups escC b).sql = 0 ∧ (compileGroups escC b).args = [] := by
  by_cases he : b.groups.isEmpty = true
  · unfold compileGroups
    rw [if_pos he]
    exact ⟨rfl, rfl⟩
  · have hg : strQ "GROUP BY " = 0 := by decide
    have hc : strQ (joinSep ", " (b.groups.map escC)) = 0 := by
      apply strQ_joinSep_zero _ (by decide)
      intro x hx
      obtain ⟨g, hmm, rfl⟩ := List.mem_map.mp hx
      exact h g hmm
    unfold compileGroups
    rw [if_neg he]
    exact ⟨by simp [strQ_append, hg, hc], rfl⟩

theorem compileOrders_aligned (escC : String → String) (b : QueryBuilder)
    (h : ∀ o ∈ b.orders, strQ (escC o.column) = 0 ∧ strQ o.direction = 0) :
    strQ (compileOrders escC b).sql = 0 ∧ (compileOrders escC b).args = [] := by
  by_cases he : b.orders.isEmpty = true
  · unfold compileOrders
    rw [if_pos he]
    exact ⟨rfl, rfl⟩
  · have ho : strQ "ORDER BY " = 0 := by decide
    have hsp : strQ " " = 0 := by decide
    have hc : strQ (joinSep ", " (b.orders.map (fun x => escC x.column ++ " " ++ x.direction)))
        = 0 := by
      apply strQ_joinSep_zero _ (by decide)
      intro x hx
      obtain ⟨o, hmm, rfl⟩ := List.mem_map.mp hx
      simp [strQ_append, (h o hmm).1, (h o hmm).2, hsp]
    unfold compileOrders
    rw [if_neg he]
    exact ⟨by simp [strQ_append, ho, hc], rfl⟩

theorem compileLimit_aligned (b : QueryBuilder) :
    strQ (compileLimit b).sql = (compileLimit b).args.length := by
  by_cases hl : b.limitCount = -1
  · unfold compileLimit
    rw [if_pos hl]
    rfl
  · unfold compileLimit
    rw [if_neg hl]
    have h1 : strQ "LIMIT ?" = 1 := by decide
    simp [h1]

/-! ## Claim 3: placeholder count/order matches the argument list -/

theorem strQ_set_columns (value : List (String × DatabaseType))
    (h : ∀ kv ∈ value, strQ kv.1 = 0) :
    strQ (joinSep ", " (value.map (fun kv => kv.1 ++ " = ?"))) = value.length := by
  rw [strQ_joinSep _ (by decide), List.map_map]
  have hone : value.map (strQ ∘ fun kv => kv.1 ++ " = ?") = value.map (fun _ => 1) := by
    apply List.map_congr_left
    intro kv hkv
    have h1 : strQ " = ?" = 1 := by decide
    simp [Function.comp, strQ_append, h kv hkv, h1]
  rw [hone]
  have hgen : ∀ (l : List (String × DatabaseType)), (l.map (fun _ => 1)).sum = l.length := by
    intro l
    induction l with
    | nil => rfl
    | cons kv rest ih =>
        simp only [List.map_cons, List.sum_cons, List.length_cons, ih]
        omega
  exact hgen value

/-- C3 (amended): For every builder state in which every raw where clause
is balanced *and* every identifier, operator, connector, direction and
aggregate name that is rendered verbatim (after escaping) is free of stray `?`
characters — the `builderWF` predicate — the SQL text returned by
`compileSelect` contains exactly as many `?` placeholders as there are
entries in the returned argument list, and the argument list is the
concatenation of the per-component argument lists in the components' fixed
render order, so the i-th argument corresponds to the i-th `?`. -/
theorem compileSelect_placeholders_match_args (escC escT : String → String)
    (b : QueryBuilder) (h : builderWF escC escT b = true) :
    strQ (compileSelect escC escT b).sql = (compileSelect escC escT b).args.length ∧
    (compileSelect escC escT b).args
      = ((compileComponents escC escT b).map QueryComponent.args).flatten := by
  obtain ⟨h1, h2, h3, h4, h5, h6, h7⟩ := builderWF_unpack escC escT b h
  refine ⟨?_, rfl⟩
  have ha := compileAggregate_aligned escC b h3 h2
  have hcol := compileColumns_aligned escC b h2
  have hf := compileFrom_aligned escT b h1
  have hj := compileJoins_aligned escC escT b h5
  have hw := compileWheres_aligned escC b h4
  have hg := compileGroups_aligned escC b h6
  have ho := compileOrders_aligned escC b h7
  have hl := compileLimit_aligned b
  have hsp : strQ " " = 0 := by decide
  have ha2 : (compileAggregate escC b).args.length = 0 := by rw [ha.2]; rfl
  have hcol2 : (compileColumns escC b).args.length = 0 := by rw [hcol.2]; rfl
  have hf2 : (compileFrom escT b).args.length = 0 := by rw [hf.2]; rfl
  have hg2 : (compileGroups escC b).args.length = 0 := by rw [hg.2]; rfl
  have ho2 : (compileOrders escC b).args.length = 0 := by rw [ho.2]; rfl
  simp only [compileSelect, strQ_joinSep " " hsp, strQ_filter_sum, List.length_flatten,
    compileComponents, List.map_cons, List.map_nil, List.sum_cons, List.sum_nil]
  omega

/-- Counterexample to C3 as stated: the raw-clause hypothesis alone does not
suffice. A builder whose only clause is a basic where on the column `a?`
satisfies the raw-balance hypothesis (it has no raw clauses), yet the base
compiler (identity escaping) emits `SELECT * FROM t WHERE a? = ?` — two `?`
tokens for a single bound argument. -/
theorem compileSelect_placeholder_mismatch_on_question_column :
    builderRawBalanced
        (.mk false none "t" ["*"] false []
          [.basic "a?" "=" (.num 1) "AND"] [] [] (-1)) = true ∧
    strQ (compileSelect id id
        (.mk false none "t" ["*"] false []
          [.basic "a?" "=" (.num 1) "AND"] [] [] (-1))).sql = 2 ∧
    (compileSelect id id
        (.mk false none "t" ["*"] false []
          [.basic "a?" "=" (.num 1) "AND"] [] [] (-1))).args.length = 1 := by
  have hcond : compileConditionsList id [.basic "a?" "=" (.num 1) "AND"]
      = { sql := "a? = ?", args := [.num 1] } := by
    simp only [compileConditionsList, compileConditionParts, compileWhereContent,
      List.map_cons, List.map_nil, List.flatten_cons, List.flatten_nil, joinSep, id_eq,
      List.append_nil, if_pos]
    decide
  have hsel : compileSelect id id
      (.mk false none "t" ["*"] false []
        [.basic "a?" "=" (.num 1) "AND"] [] [] (-1))
      = { sql := "SELECT * FROM t WHERE a? = ?", args := [.num 1] } := by
    simp only [compileSelect, compileComponents, compileAggregate, compileColumns,
      compileFrom, compileJoins, compileWheres, compileGroups, compileOrders, compileLimit,
      QueryBuilder.aggregateFunction, QueryBuilder.columns, QueryBuilder.isDistinct,
      QueryBuilder.table, QueryBuilder.joins, QueryBuilder.wheres, QueryBuilder.groups,
      QueryBuilder.orders, QueryBuilder.limitCount, strTruthy, hcond]
    decide
  rw [hsel]
  refine ⟨?_, by decide, rfl⟩
  simp only [builderRawBalanced, QueryBuilder.wheres, QueryBuilder.joins, wsRawBalanced,
    wcRawBalanced, List.all_nil, Bool.and_true]

/-- Witness for the amended C3 at a concrete well-formed builder. -/
theorem compileSelect_placeholders_match_args_witness :
    strQ (compileSelect id id
        (.mk false none "t" ["*"] false []
          [.basic "a" "=" (.num 1) "AND", .raw "b in (?, ?)" [.num 2, .num 3] "OR"]
          [] [] (-1))).sql
      = (compileSelect id id
        (.mk false none "t" ["*"] false []
          [.basic "a" "=" (.num 1) "AND", .raw "b in (?, ?)" [.num 2, .num 3] "OR"]
          [] [] (-1))).args.length :=
  (compileSelect_placeholders_match_args id id _ (by
    simp only [builderWF, QueryBuilder.table, QueryBuilder.columns,
      QueryBuilder.aggregateFunction, QueryBuilder.wheres, QueryBuilder.joins,
      QueryBuilder.groups, QueryBuilder.orders, wsWF, wcWF, List.all_cons, List.all_nil,
      id_eq]
    decide)).1

/-! ## Claim 2: UPDATE shape and argument order -/

/-- C2 (amended): `compileUpdate` always produces
`UPDATE {table}{joins} SET {col} = ?, ... {where}` with arguments
join-args ++ SET values ++ where-args; and whenever the builder is
well-formed and the SET keys are `?`-free, the placeholder count of that SQL
equals the argument count, so argument order matches placeholder occurrence
order. -/
theorem compileUpdate_shape_and_args (escC escT : String → String) (b : QueryBuilder)
    (value : List (String × DatabaseType)) :
    compileUpdate escC escT b value
      = { sql := "UPDATE " ++ escT b.table ++ (compileJoins escC escT b).sql ++ " SET " ++
            joinSep ", " (value.map (fun kv => kv.1 ++ " = ?")) ++ " " ++
            (compileWheres escC b).sql,
          args := (compileJoins escC escT b).args ++ value.map Prod.snd ++
            (compileWheres escC b).args } ∧
    (builderWF escC escT b = true → (∀ kv ∈ value, strQ kv.1 = 0) →
      strQ (compileUpdate escC escT b value).sql
        = (compileUpdate escC escT b value).args.length) := by
  refine ⟨rfl, fun hWF hkeys => ?_⟩
  obtain ⟨h1, h2, h3, h4, h5, h6, h7⟩ := builderWF_unpack escC escT b hWF
  have hj := compileJoins_aligned escC escT b h5
  have hw := compileWheres_aligned escC b h4
  have hset := strQ_set_columns value hkeys
  have hu : strQ "UPDATE " = 0 := by decide
  have hs : strQ " SET " = 0 := by decide
  have hsp : strQ " " = 0 := by decide
  simp only [compileUpdate, strQ_append, hu, hs, hsp, h1, hj, hw, hset,
    List.length_append, List.length_map]
  omega

/-- Counterexample to C2 as stated: with a SET key containing `?` (key `a?`),
`compileUpdate` emits `UPDATE t SET a? = ? ` — two `?` tokens for one
argument — so argument order cannot match placeholder occurrence order
exactly without the well-formedness proviso. -/
theorem compileUpdate_mismatch_on_question_key :
    strQ (compileUpdate id id
        (.mk false none "t" ["*"] false [] [] [] [] (-1))
        [("a?", .num 1)]).sql = 2 ∧
    (compileUpdate id id
        (.mk false none "t" ["*"] false [] [] [] [] (-1))
        [("a?", .num 1)]).args.length = 1 := by
  constructor
  · decide
  · decide

/-- Witness for the amended C2 at a concrete builder with a where clause. -/
theorem compileUpdate_shape_and_args_witness :
    strQ (compileUpdate id id
        (.mk false none "t" ["*"] false [] [.basic "c" "=" (.num 5) "AND"] [] [] (-1))
        [("a", .num 1), ("b", .num 2)]).sql
      = (compileUpdate id id
        (.mk false none "t" ["*"] false [] [.basic "c" "=" (.num 5) "AND"] [] [] (-1))
        [("a", .num 1), ("b", .num 2)]).args.length :=
  (compileUpdate_shape_and_args id id _ _).2
    (by
      simp only [builderWF, QueryBuilder.table, QueryBuilder.columns,
        QueryBuilder.aggregateFunction, QueryBuilder.wheres, QueryBuilder.joins,
        QueryBuilder.groups, QueryBuilder.orders, wsWF, wcWF, List.all_cons, List.all_nil,
        id_eq]
      decide)
    (by
      intro kv hkv
      simp only [List.mem_cons, List.mem_singleton] at hkv
      rcases hkv with rfl | rfl | h
      · decide
      · decide
      · cases h)

/-! ## Claim 4: connector rendering across chained where/orWhere calls -/

theorem applyWhereCalls_wheres (b : QueryBuilder) (calls : List WhereCall) :
    (applyWhereCalls b calls).wheres
      = b.wheres ++ calls.map (fun c =>
          WhereQueryClause.basic c.column c.operator c.value c.boolean) := by
  induction calls generalizing b with
  | nil => simp [applyWhereCalls]
  | cons c rest ih =>
    rw [applyWhereCalls, ih]
    cases b
    simp [QueryBuilder.whereBasic, QueryBuilder.pushWhere, QueryBuilder.wheres,
      List.append_assoc]

theorem compileConditionParts_false_sqls (escC : String → String)
    (ws : List WhereQueryClause) :
    (compileConditionParts escC false ws).map QueryComponent.sql
      = ws.map (fun w => w.boolean ++ " " ++ (compileWhereContent escC w).sql) := by
  induction ws with
  | nil => simp [compileConditionParts]
  | cons w rest ih =>
    simp only [compileConditionParts, List.map_cons, ih, Bool.false_eq_true, if_false]

/-- C4: Replaying any non-empty sequence of chained `where`/`orWhere` calls
(each recorded with the connector that call passes: `AND` for `where`, `OR`
for `orWhere`, or an explicitly supplied connector) on a builder with no prior
where clauses renders the WHERE body with the first clause's connector
omitted and every later clause prefixed with exactly its own connector. -/
theorem where_chain_connector_rendering (escC : String → String) (b0 : QueryBuilder)
    (hb : b0.wheres = []) (c : WhereCall) (rest : List WhereCall) :
    (compileConditionsList escC (applyWhereCalls b0 (c :: rest)).wheres).sql
      = joinSep " " ((escC c.column ++ " " ++ c.operator ++ " ?") ::
          rest.map (fun d =>
            d.boolean ++ " " ++ (escC d.column ++ " " ++ d.operator ++ " ?"))) := by
  have hw : (applyWhereCalls b0 (c :: rest)).wheres
      = .basic c.column c.operator c.value c.boolean ::
        rest.map (fun d => WhereQueryClause.basic d.column d.operator d.value d.boolean) := by
    rw [applyWhereCalls_wheres, hb, List.nil_append, List.map_cons]
  rw [hw]
  simp only [compileConditionsList, compileConditionParts, List.map_cons]
  apply congrArg (joinSep " ")
  apply List.cons_eq_cons.mpr
  constructor
  · simp [compileWhereContent]
  · simp only [compileConditionParts_false_sqls, List.map_map]
    apply List.map_congr_left
    intro d hd
    simp [WhereQueryClause.boolean, compileWhereContent]

/-- Witness for C4: three chained calls (`where`, then `orWhere`, then a
`where` with an explicit connector) on a fresh builder. -/
theorem where_chain_connector_rendering_witness :
    (compileConditionsList id (applyWhereCalls (QueryBuilder.ofTable "t")
        [⟨"a", "=", .num 1, "AND"⟩, ⟨"b", "=", .num 2, "OR"⟩, ⟨"c", "<", .num 3, "AND"⟩]).wheres).sql
      = joinSep " " ((id "a" ++ " " ++ "=" ++ " ?") ::
          [(⟨"b", "=", .num 2, "OR"⟩ : WhereCall), ⟨"c", "<", .num 3, "AND"⟩].map (fun d =>
            d.boolean ++ " " ++ (id d.column ++ " " ++ d.operator ++ " ?"))) :=
  where_chain_connector_rendering id (QueryBuilder.ofTable "t") rfl
    ⟨"a", "=", .num 1, "AND"⟩ [⟨"b", "=", .num 2, "OR"⟩, ⟨"c", "<", .num 3, "AND"⟩]

/-! ## Claim 7: nested where rendering and wheres-only dependence -/

/-- C7: A nested where clause renders as a single parenthesized group
around the inner builder's compiled WHERE body, carries its connector in the
`boolean` position the condition renderer uses for splicing, and the rendered
fragment and arguments depend only on the nested builder's `wheres` list:
builders equal in `wheres` but different in joins, groups, orders or limit
compile to identical fragments and argument lists. -/
theorem nested_where_parenthesized_wheres_only (escC : String → String) :
    (∀ (b : QueryBuilder) (conn : String),
      compileWhereContent escC (.nested b conn)
        = { sql := "(" ++ (compileConditionsList escC b.wheres).sql ++ ")",
            args := (compileConditionsList escC b.wheres).args }) ∧
    (∀ (b : QueryBuilder) (conn : String), (WhereQueryClause.nested b conn).boolean = conn) ∧
    (∀ (b1 b2 : QueryBuilder) (conn : String), b1.wheres = b2.wheres →
      compileWhereContent escC (.nested b1 conn)
        = compileWhereContent escC (.nested b2 conn)) := by
  refine ⟨fun b conn => ?_, fun b conn => rfl, fun b1 b2 conn h => ?_⟩
  · cases b
    simp only [compileWhereContent, QueryBuilder.wheres]
  · cases b1
    cases b2
    simp only [QueryBuilder.wheres] at h
    subst h
    simp only [compileWhereContent]

/-- Witness for C7: two nested builders sharing the same `wheres` but with
different joins, groups, orders and limit compile identically. -/
theorem nested_where_parenthesized_wheres_only_witness :
    compileWhereContent id
        (.nested (.mk false none "t" ["*"] false []
          [.basic "a" "=" (.num 1) "AND"] [] [] (-1)) "OR")
      = compileWhereContent id
        (.nested (.mk true (some "COUNT") "u" ["x"] true
          [.mk "INNER" "j" (.mk false none "j" ["*"] false [] [] [] [] (-1))]
          [.basic "a" "=" (.num 1) "AND"] ["g"] [⟨"o", "ASC"⟩] 5) "OR") :=
  (nested_where_parenthesized_wheres_only id).2.2 _ _ "OR" rfl

/-! ## Claim 5: aggregate rendering suppresses the column list -/

/-- C5: Whenever `aggregateFunction` carries one of the five aggregate
names, `compileAggregate` renders `SELECT FN(columns) AS aggregate` with
`DISTINCT ` inserted exactly when `isDistinct` is set and the escaped,
comma-joined column list is not the all-columns sentinel `*`; the plain
column clause compiles to nothing, and no builder ever renders both the
aggregate clause and the column clause. -/
theorem aggregate_rendering_suppresses_columns (escC : String → String)
    (b : QueryBuilder) (fn : String) (hagg : b.aggregateFunction = some fn)
    (hfn : fn ∈ ["COUNT", "SUM", "AVG", "MIN", "MAX"]) :
    compileAggregate escC b
      = { sql := "SELECT " ++ fn ++ "(" ++
            (if b.isDistinct && joinSep ", " (b.columns.map escC) ≠ "*"
              then "DISTINCT " else "") ++
            joinSep ", " (b.columns.map escC) ++ ") AS aggregate",
          args := [] } ∧
    compileColumns escC b = { sql := "", args := [] } ∧
    (∀ b2 : QueryBuilder,
      (compileAggregate escC b2).sql = "" ∨ (compileColumns escC b2).sql = "") := by
  have hne : fn ≠ "" := by
    simp only [List.mem_cons, List.not_mem_nil, or_false] at hfn
    rcases hfn with rfl | rfl | rfl | rfl | rfl <;> decide
  have htr : strTruthy b.aggregateFunction = true := by
    rw [hagg]
    simpa [strTruthy] using hne
  refine ⟨?_, ?_, fun b2 => ?_⟩
  · have hcond : ¬ ((!strTruthy b.aggregateFunction) = true) := by rw [htr]; simp
    unfold compileAggregate
    rw [if_neg hcond, hagg]
    rfl
  · unfold compileColumns
    rw [if_pos htr]
  · cases hst : strTruthy b2.aggregateFunction with
    | false =>
      left
      have hcond : (!strTruthy b2.aggregateFunction) = true := by rw [hst]; rfl
      unfold compileAggregate
      rw [if_pos hcond]
    | true =>
      right
      unfold compileColumns
      rw [if_pos hst]

/-- Witness for C5: `MAX` over a distinct single column, matching the spec
scenario `SELECT MAX(DISTINCT bar) AS aggregate`. -/
theorem aggregate_rendering_suppresses_columns_witness :
    compileAggregate id (.mk false (some "MAX") "test" ["bar"] true [] [] [] [] (-1))
      = { sql := "SELECT " ++ "MAX" ++ "(" ++
            (if (QueryBuilder.mk false (some "MAX") "test" ["bar"] true [] [] [] [] (-1)).isDistinct
                && joinSep ", " ((QueryBuilder.mk false (some "MAX") "test" ["bar"] true [] [] [] [] (-1)).columns.map id) ≠ "*"
              then "DISTINCT " else "") ++
            joinSep ", " ((QueryBuilder.mk false (some "MAX") "test" ["bar"] true [] [] [] [] (-1)).columns.map id) ++ ") AS aggregate",
          args := [] } ∧
    compileColumns id (.mk false (some "MAX") "test" ["bar"] true [] [] [] [] (-1))
      = { sql := "", args := [] } :=
  ⟨(aggregate_rendering_suppresses_columns id
      (.mk false (some "MAX") "test" ["bar"] true [] [] [] [] (-1)) "MAX" rfl (by decide)).1,
   (aggregate_rendering_suppresses_columns id
      (.mk false (some "MAX") "test" ["bar"] true [] [] [] [] (-1)) "MAX" rfl (by decide)).2.1⟩

/-- The witness's aggregate clause evaluates to the spec's literal example. -/
theorem aggregate_rendering_example_string :
    (compileAggregate id (.mk false (some "MAX") "test" ["bar"] true [] [] [] [] (-1))).sql
      = "SELECT MAX(DISTINCT bar) AS aggregate" := by
  decide

/-! ## Claim 6: INSERT shape and row-major argument order -/

theorem jsGet_keys (row : List (String × DatabaseType))
    (hnd : (row.map Prod.fst).Nodup) :
    (row.map Prod.fst).map (jsGet row) = row.map Prod.snd := by
  induction row with
  | nil => rfl
  | cons kv rest ih =>
    simp only [List.map_cons, List.nodup_cons] at hnd ⊢
    apply List.cons_eq_cons.mpr
    constructor
    · simp [jsGet, List.find?]
    · have hs : ∀ k ∈ rest.map Prod.fst, jsGet (kv :: rest) k = jsGet rest k := by
        intro k hk
        have hne : ¬ (kv.1 = k) := fun he => hnd.1 (he ▸ hk)
        simp [jsGet, List.find?, hne]
      rw [List.map_congr_left hs, ih hnd.2]

/-- C6: For every non-empty list of rows sharing the key set (and key
order) of the first row, `compileInsert` emits
`INSERT INTO {table} ({c1},{c2},...) VALUES (?,...), (?,...)` — columns from
the first row's keys, one placeholder tuple per row — with the argument list
being the rows' values flattened in row-major, column order. -/
theorem compileInsert_shape (escC escT : String → String) (b : QueryBuilder)
    (r : List (String × DatabaseType)) (rs : List (List (String × DatabaseType)))
    (hshape : ∀ row ∈ rs, row.map Prod.fst = r.map Prod.fst)
    (hnodup : (r.map Prod.fst).Nodup) :
    compileInsert escC escT b (r :: rs)
      = { sql := "INSERT INTO " ++ escT b.table ++ " (" ++
            joinSep "," ((r.map Prod.fst).map escC) ++ ") VALUES " ++
            joinSep ", " ((r :: rs).map (fun _ =>
              "(" ++ joinSep "," ((r.map Prod.fst).map (fun _ => "?")) ++ ")")),
          args := ((r :: rs).map (fun row => row.map Prod.snd)).flatten } := by
  simp only [compileInsert]
  have hargs : (r :: rs).map (fun x => (r.map Prod.fst).map (fun k => jsGet x k))
      = (r :: rs).map (fun row => row.map Prod.snd) := by
    apply List.map_congr_left
    intro row hrow
    rcases List.mem_cons.mp hrow with rfl | hmem
    · exact jsGet_keys row hnodup
    · have hk := hshape row hmem
      rw [← hk]
      exact jsGet_keys row (hk ▸ hnodup)
  rw [hargs]

/-- Witness for C6: the spec's own scenario — inserting
`{a:"Foo",b:10}` and `{a:"Bar",b:12}` into table `test`. -/
theorem compileInsert_shape_witness :
    compileInsert id id (.mk false none "test" ["*"] false [] [] [] [] (-1))
        [[("a", .str "Foo"), ("b", .num 10)], [("a", .str "Bar"), ("b", .num 12)]]
      = { sql := "INSERT INTO test (a,b) VALUES (?,?), (?,?)",
          args := [.str "Foo", .num 10, .str "Bar", .num 12] } := by
  rw [compileInsert_shape id id _ _ _ (by decide) (by decide)]
  decide

/-! ## Claim 8: limit validation -/

/-- C8: `limit(n)` fails with the `InvalidArgument` error
`limit() expects a positive integer.` exactly when `n < 1` (and a failing
call returns no new state, so `limitCount` is untouched); otherwise it sets
`limitCount` to `n` and leaves every other field unchanged, so any builder
produced by a successful `limit` has `limitCount ≥ 1`. -/
theorem limit_validation (m : Bool) (a : Option String) (t : String) (c : List String)
    (d : Bool) (j : List JoinClause) (w : List WhereQueryClause) (g : List String)
    (o : List OrderClause) (l : Int) (n : Int) :
    (n < 1 → QueryBuilder.limit (.mk m a t c d j w g o l) n
        = .error "limit() expects a positive integer.") ∧
    (1 ≤ n → QueryBuilder.limit (.mk m a t c d j w g o l) n
        = .ok (.mk m a t c d j w g o n)) ∧
    (∀ b2, QueryBuilder.limit (.mk m a t c d j w g o l) n = .ok b2 →
      1 ≤ b2.limitCount) := by
    refine ⟨fun h => ?_, fun h => ?_, fun b2 hb2 => ?_⟩
    · unfold QueryBuilder.limit
      rw [if_pos h]
    · unfold QueryBuilder.limit
      rw [if_neg (by omega)]
    · by_cases hn : n < 1
      · unfold QueryBuilder.limit at hb2
        rw [if_pos hn] at hb2
        cases hb2
      · unfold QueryBuilder.limit at hb2
        rw [if_neg hn] at hb2
        cases hb2
        simp only [QueryBuilder.limitCount]
        omega

/-- Witness for C8: `limit 0` fails, `limit 3` succeeds and stores `3`. -/
theorem limit_validation_witness :
    QueryBuilder.limit (.mk false none "t" ["*"] false [] [] [] [] (-1)) 0
        = .error "limit() expects a positive integer." ∧
    QueryBuilder.limit (.mk false none "t" ["*"] false [] [] [] [] (-1)) 3
        = .ok (.mk false none "t" ["*"] false [] [] [] [] 3) :=
  ⟨(limit_validation false none "t" ["*"] false [] [] [] [] (-1) 0).1 (by decide),
   (limit_validation false none "t" ["*"] false [] [] [] [] (-1) 3).2.1 (by decide)⟩

/-! ## Claim 10: builder mutation performed by the terminal reads -/

/-- C10: The terminal read operations mutate the builder before
compiling: `first()` and `value(col)` set `limitCount` to 1, `pluck(col)`
overwrites `columns` with the requested column, and
`aggregate(fn, col?)` (hence `count`/`avg`/`sum`/`min`/`max`) sets
`aggregateFunction` and overwrites `columns` exactly when a (non-empty)
column argument is given — every other field is left unchanged. -/
theorem terminal_reads_mutate_state (m : Bool) (a : Option String) (t : String)
    (c : List String) (d : Bool) (j : List JoinClause) (w : List WhereQueryClause)
    (g : List String) (o : List OrderClause) (l : Int) (col : String) (fn : String)
    (colOpt : Option String) :
    QueryBuilder.firstState (.mk m a t c d j w g o l) = .mk m a t c d j w g o 1 ∧
    QueryBuilder.valueState (.mk m a t c d j w g o l) = .mk m a t c d j w g o 1 ∧
    QueryBuilder.pluckState (.mk m a t c d j w g o l) col = .mk m a t [col] d j w g o l ∧
    QueryBuilder.aggregateState (.mk m a t c d j w g o l) fn colOpt
      = .mk m (some fn) t (if strTruthy colOpt then [colOpt.getD ""] else c) d j w g o l ∧
    QueryBuilder.countState (.mk m a t c d j w g o l)
      = .mk m (some "COUNT") t c d j w g o l ∧
    QueryBuilder.avgState (.mk m a t c d j w g o l) colOpt
      = .mk m (some "AVG") t (if strTruthy colOpt then [colOpt.getD ""] else c) d j w g o l ∧
    QueryBuilder.sumState (.mk m a t c d j w g o l) colOpt
      = .mk m (some "SUM") t (if strTruthy colOpt then [colOpt.getD ""] else c) d j w g o l ∧
    QueryBuilder.minState (.mk m a t c d j w g o l) colOpt
      = .mk m (some "MIN") t (if strTruthy colOpt then [colOpt.getD ""] else c) d j w g o l ∧
    QueryBuilder.maxState (.mk m a t c d j w g o l) colOpt
      = .mk m (some "MAX") t (if strTruthy colOpt then [colOpt.getD ""] else c) d j w g o l :=
  ⟨rfl, rfl, rfl, rfl, rfl, rfl, rfl, rfl, rfl⟩

/-! ## Claim 9: groupBy prepends and de-duplicates keeping first occurrences -/

theorem jsUniqueFilter_mem (l : List String) (x : String) :
    x ∈ jsUniqueFilter l ↔ x ∈ l := by
  unfold jsUniqueFilter
  constructor
  · intro hx
    obtain ⟨p, hp, rfl⟩ := List.mem_map.mp hx
    have hpe := List.mem_filter.mp hp
    exact List.get?_mem (List.mem_enum_iff_get?.mp hpe.1)
  · intro hx
    apply List.mem_map.mpr
    refine ⟨(l.indexOf x, x), ?_, rfl⟩
    apply List.mem_filter.mpr
    exact ⟨List.mk_mem_enum_iff_get?.mpr (List.indexOf_get? hx), by simp⟩

theorem jsUniqueFilter_pairwise (l : List String) :
    (jsUniqueFilter l).Pairwise (fun x y => l.indexOf x < l.indexOf y) := by
  unfold jsUniqueFilter
  apply List.pairwise_map.mpr
  have h0 : l.enum.Pairwise (fun p q => p.1 < q.1) := by
    apply List.pairwise_map.mp
    rw [List.enum_map_fst]
    exact List.pairwise_lt_range _
  have h2 := h0.filter (fun p => l.indexOf p.2 == p.1)
  refine List.Pairwise.imp_of_mem ?_ h2
  intro a b ha hb hlt
  have ha2 : l.indexOf a.2 = a.1 := by
    have := (List.mem_filter.mp ha).2
    simpa using this
  have hb2 : l.indexOf b.2 = b.1 := by
    have := (List.mem_filter.mp hb).2
    simpa using this
  omega

theorem jsUniqueFilter_nodup (l : List String) : (jsUniqueFilter l).Nodup := by
  apply (jsUniqueFilter_pairwise l).imp
  intro a b h he
  subst he
  exact absurd h (lt_irrefl _)

theorem foldl_groupBy_nodup (calls : List (List String)) (b : QueryBuilder)
    (hb : b.groups.Nodup) : (calls.foldl QueryBuilder.groupBy b).groups.Nodup := by
  induction calls generalizing b with
  | nil => simpa using hb
  | cons gs rest ih =>
    rw [List.foldl_cons]
    apply ih
    cases b
    exact jsUniqueFilter_nodup _

/-- C9: `groupBy(...cols)` prepends the newly supplied columns before the
previously registered ones and de-duplicates with the first-occurrence filter
`(e, i, a) => a.indexOf(e) === i`: the result keeps exactly the members of
the combined list, ordered by their first-occurrence index (so the first
occurrence is the one kept), and never contains a duplicate — in particular
`groupBy("a")` then `groupBy("b")` leaves `["b", "a"]`, and any sequence of
`groupBy` calls on a fresh builder leaves duplicate-free groups. -/
theorem groupBy_prepends_and_dedups :
    (∀ (b : QueryBuilder) (gs : List String),
      (b.groupBy gs).groups = jsUniqueFilter (gs ++ b.groups)) ∧
    (((QueryBuilder.ofTable "t").groupBy ["a"]).groupBy ["b"]).groups = ["b", "a"] ∧
    (∀ l : List String,
      (∀ x, x ∈ jsUniqueFilter l ↔ x ∈ l) ∧
      (jsUniqueFilter l).Pairwise (fun x y => l.indexOf x < l.indexOf y) ∧
      (jsUniqueFilter l).Nodup) ∧
    (∀ calls : List (List String),
      ((calls.foldl QueryBuilder.groupBy (QueryBuilder.ofTable "t")).groups).Nodup) := by
  refine ⟨fun b gs => ?_, by decide,
    fun l => ⟨fun x => jsUniqueFilter_mem l x, jsUniqueFilter_pairwise l,
      jsUniqueFilter_nodup l⟩,
    fun calls => foldl_groupBy_nodup calls _ (by decide)⟩
  cases b
  rfl

end Basie
